import Mathlib

/-!
Shallow embedding of the quadtree cell structure of `drifter/src/grid/cell.py`
together with `drifter/src/grid/vertex.py` (repository quadmesh).

Modelling conventions:

* A `Tree` is the subtree of cells rooted at one cell: its four corner
  vertices (the source dictionary entries `vertices[SW|SE|NE|NW]`) and its
  four child slots (the `children` dictionary; `none` is an unpopulated
  slot).
* A forest is a `List Tree`: the ordered root cells of the mesh.  The source
  accesses this list as `self.parent.children` of a root cell; the `Mesh` /
  `Forest` container itself is not part of the source, so its content is
  modelled from the spec as an ordered list of root cells.  A cell is
  addressed by the index of its root together with its bottom-up path: the
  head of the path is the value of the `position` attribute of the cell
  inside its parent, the tail is the path of the parent; root cells have
  path `[]`.
* Vertices carry rational coordinates.  The source compares `Vertex` objects
  with `==`, which for this class is object identity; the spec-modelled
  Forest vertex registry guarantees at most one vertex instance per distinct
  coordinate, so identity comparison is modelled as coordinate equality.
-/

namespace Quadmesh

/-- Quadrant position of a child cell inside its parent: the `position`
attribute and the keys of the `children` dictionary. -/
inductive Quadrant where
  | NW
  | NE
  | SW
  | SE
deriving DecidableEq, Fintype

/-- The four valid compass directions accepted by `find_neighbor`. -/
inductive Dir where
  | N
  | S
  | E
  | W
deriving DecidableEq, Fintype

/-- Opposite compass direction, as used by the symmetry property of the
spec section on testable properties. -/
def opposite : Dir → Dir
  | Dir.N => Dir.S
  | Dir.S => Dir.N
  | Dir.E => Dir.W
  | Dir.W => Dir.E

/-- A mesh vertex (`vertex.py`): a planar point.  Coordinates are modelled
as rationals; vertex identity is coordinate equality (see module comment). -/
structure Vertex where
  x : ℚ
  y : ℚ
deriving DecidableEq

/-- The four corner vertices of a cell: `self.vertices` at the keys
SW, SE, NE, NW. -/
structure Corners where
  sw : Vertex
  se : Vertex
  ne : Vertex
  nw : Vertex
deriving DecidableEq

/-- Corner layout of the axis-aligned rectangle with x extent from x0 to x1
and y extent from y0 to y1. -/
def rectCorners (x0 x1 y0 y1 : ℚ) : Corners :=
  ⟨⟨x0, y0⟩, ⟨x1, y0⟩, ⟨x1, y1⟩, ⟨x0, y1⟩⟩

/-- The subtree of mesh cells below (and including) one cell: its corner
vertices and the four child slots of the `children` dictionary, in the
order SW, SE, NE, NW (`none` is an unpopulated slot). -/
inductive Tree where
  | mk : Corners → Option Tree → Option Tree → Option Tree → Option Tree → Tree

/-- Corner vertices of the cell. -/
def Tree.corners : Tree → Corners
  | Tree.mk c _ _ _ _ => c

/-- The child slot `self.children[q]`. -/
def Tree.child : Tree → Quadrant → Option Tree
  | Tree.mk _ csw _ _ _, Quadrant.SW => csw
  | Tree.mk _ _ cse _ _, Quadrant.SE => cse
  | Tree.mk _ _ _ cne _, Quadrant.NE => cne
  | Tree.mk _ _ _ _ cnw, Quadrant.NW => cnw

/-- True when all four child slots are unpopulated. -/
def Tree.childless : Tree → Bool
  | Tree.mk _ csw cse cne cnw => csw.isNone && cse.isNone && cne.isNone && cnw.isNone

/-- Follow a bottom-up path: the cell at path `q :: qs` is the child at
quadrant `q` of the cell at path `qs`. -/
def Tree.descendUp (t : Tree) : List Quadrant → Option Tree
  | [] => some t
  | q :: qs =>
    match t.descendUp qs with
    | none => none
    | some p => p.child q

/-- Dereference a cell address (root index and bottom-up path) in a forest. -/
def getCell (F : List Tree) (r : ℕ) (path : List Quadrant) : Option Tree :=
  match F.get? r with
  | none => none
  | some t => t.descendUp path

/-- The cell classification strings of the source. -/
inductive CellType where
  | ROOT
  | BRANCH
  | LEAF
deriving DecidableEq

/-- Modelled from the spec: the source constructor assigns type ROOT when the
parent is the mesh (depth 0) and LEAF otherwise, and the operations that
maintain the type across the lifecycle (`refine`, `coarsen`) are unimplemented
stubs in the source; per the spec invariants, kind is Root iff depth 0, Leaf
iff non-root with all child slots unpopulated, and Branch otherwise. -/
def cellTypeOf (path : List Quadrant) (t : Tree) : CellType :=
  if path.isEmpty then CellType.ROOT
  else if t.childless then CellType.LEAF
  else CellType.BRANCH

/-- Refinement depth of a cell: 0 for a root, parent depth plus one
otherwise, hence the length of the bottom-up path. -/
def depthOf (path : List Quadrant) : ℕ := path.length

/-- The direction-specific shared-corner equality rule of the root case of
`find_neighbor`: for N the candidate is a neighbor iff the NW corner of self
equals the SW corner of the candidate and the NE corner of self equals the SE
corner of the candidate, with the mirrored rules for S, E and W. -/
def neighborTest (x xx : Corners) : Dir → Bool
  | Dir.N => decide (x.nw = xx.sw) && decide (x.ne = xx.se)
  | Dir.S => decide (x.sw = xx.nw) && decide (x.se = xx.ne)
  | Dir.E => decide (x.se = xx.sw) && decide (x.ne = xx.nw)
  | Dir.W => decide (x.sw = xx.se) && decide (x.nw = xx.ne)

/-- The interior-neighbor table `interior_neighbors_dict` of the non-root
case of `find_neighbor`, keyed by direction: for N the dictionary maps SW to
NW and SE to NE, and analogously for S, E and W; `none` is absence of the
key. -/
def interiorNeighbor : Dir → Quadrant → Option Quadrant
  | Dir.N, Quadrant.SW => some Quadrant.NW
  | Dir.N, Quadrant.SE => some Quadrant.NE
  | Dir.S, Quadrant.NW => some Quadrant.SW
  | Dir.S, Quadrant.NE => some Quadrant.SE
  | Dir.E, Quadrant.SW => some Quadrant.SE
  | Dir.E, Quadrant.NW => some Quadrant.NE
  | Dir.W, Quadrant.SE => some Quadrant.SW
  | Dir.W, Quadrant.NE => some Quadrant.NW
  | _, _ => none

/-- The mirror table `exterior_neighbors_dict`: the interior table with keys
and values swapped, as built by the dictionary comprehension in the source. -/
def exteriorNeighbor : Dir → Quadrant → Option Quadrant
  | Dir.N, Quadrant.NW => some Quadrant.SW
  | Dir.N, Quadrant.NE => some Quadrant.SE
  | Dir.S, Quadrant.SW => some Quadrant.NW
  | Dir.S, Quadrant.SE => some Quadrant.NE
  | Dir.E, Quadrant.SE => some Quadrant.SW
  | Dir.E, Quadrant.NE => some Quadrant.NW
  | Dir.W, Quadrant.SW => some Quadrant.SE
  | Dir.W, Quadrant.NW => some Quadrant.NE
  | _, _ => none

/-- `Cell.find_neighbor` for a valid direction, on a cell addressed by root
index `r` and bottom-up path in the forest `F`.

Root case (path `[]`): the source iterates `self.parent.children` (the root
list) and, inside the first loop iteration, returns the first candidate when
the shared-corner test succeeds and returns `None` otherwise, so only the
head of the root list is ever examined; an empty root list falls off the end
of the function, returning `None`.

Non-root case (path `pos :: rest`): when the interior table has an entry for
`pos`, the result is the sibling slot `parent.children[entry]` (possibly
unpopulated, hence `none`); otherwise `mu = parent.find_neighbor(direction)`
is computed recursively, `none` and LEAF-classified results are returned
as-is, and otherwise the child of `mu` at the mirror-table entry for `pos`
is returned (possibly `none` when that slot is unpopulated). -/
def find_neighbor (F : List Tree) (r : ℕ) : List Quadrant → Dir → Option (ℕ × List Quadrant)
  | [], d =>
    match F.get? r with
    | none => none
    | some t =>
      match F.head? with
      | none => none
      | some s => if neighborTest t.corners s.corners d then some (0, []) else none
  | pos :: rest, d =>
    match interiorNeighbor d pos with
    | some npos =>
      match getCell F r rest with
      | none => none
      | some par =>
        match par.child npos with
        | none => none
        | some _ => some (r, npos :: rest)
    | none =>
      match find_neighbor F r rest d with
      | none => none
      | some (rp, pp) =>
        match getCell F rp pp with
        | none => none
        | some mu =>
          if !pp.isEmpty && mu.childless then some (rp, pp)
          else
            match exteriorNeighbor d pos with
            | some epos =>
              match mu.child epos with
              | none => none
              | some _ => some (rp, epos :: pp)
            | none => none

/-- `Cell.find_root`: a cell of type ROOT returns itself, any other cell
recurses into its parent; in address form the root of the cell at
`(r, path)` is `(r, [])`. -/
def find_root (r : ℕ) : List Quadrant → ℕ × List Quadrant
  | [] => (r, [])
  | _ :: rest => find_root r rest

/-- Runtime errors of the source that the claims mention: attribute access
on an object without that attribute, and use of a local name that was never
assigned. -/
inductive PyErr where
  | attributeError
  | nameError
deriving DecidableEq

/-- `Cell.find_leaves` restricted to non-root cells.  A LEAF-classified cell
(childless) yields itself.  Otherwise the source iterates
`self.children.keys()` and recurses into `self.children[pos]` for each key;
the key order of a Python 2 dictionary is implementation defined, one fixed
order (NE, NW, SE, SW, the insertion order of the literal) is used here.  An
unpopulated slot makes the source call `find_leaves` on `None`, raising
AttributeError. -/
def Tree.leaves_nonroot : Tree → Except PyErr (List Tree)
  | Tree.mk c csw cse cne cnw =>
    if csw.isNone && cse.isNone && cne.isNone && cnw.isNone then
      Except.ok [Tree.mk c csw cse cne cnw]
    else
      match cne with
      | none => Except.error PyErr.attributeError
      | some tne =>
      match tne.leaves_nonroot with
      | Except.error e => Except.error e
      | Except.ok lne =>
      match cnw with
      | none => Except.error PyErr.attributeError
      | some tnw =>
      match tnw.leaves_nonroot with
      | Except.error e => Except.error e
      | Except.ok lnw =>
      match cse with
      | none => Except.error PyErr.attributeError
      | some tse =>
      match tse.leaves_nonroot with
      | Except.error e => Except.error e
      | Except.ok lse =>
      match csw with
      | none => Except.error PyErr.attributeError
      | some tsw =>
      match tsw.leaves_nonroot with
      | Except.error e => Except.error e
      | Except.ok lsw => Except.ok (lne ++ lnw ++ lse ++ lsw)

/-- `Cell.find_leaves`.  A root cell is never LEAF-classified, so it takes
the ROOT branch, where the source iterates `self.children` directly: Python
iteration over a dictionary yields its keys, which are strings, and the
first loop iteration calls `find_leaves` on a string, raising
AttributeError before any cell is visited. -/
def find_leaves (t : Tree) (isRoot : Bool) : Except PyErr (List Tree) :=
  if isRoot then Except.error PyErr.attributeError
  else t.leaves_nonroot

/-- `Cell.contains_point`: unpacks the SW corner as the minimum and the NE
corner as the maximum and tests the chained comparisons
`x_min <= x <= x_max and y_min <= y <= y_max`, inclusive on all four
boundaries. -/
def contains_point (c : Corners) (p : ℚ × ℚ) : Bool :=
  decide (c.sw.x ≤ p.1) && decide (p.1 ≤ c.ne.x) &&
    decide (c.sw.y ≤ p.2) && decide (p.2 ≤ c.ne.y)

/-- Midpoint of the segment between two vertices. -/
def midpoint (a b : Vertex) : Vertex := ⟨(a.x + b.x) / 2, (a.y + b.y) / 2⟩

/-- Modelled from the spec: corner set of one quadrant child produced by
`refine` (an unimplemented stub in the source): the four edge-midpoint
vertices and the center vertex combine with the parent corners to give the
corner set of each child quadrant. -/
def quadrantCorners (c : Corners) : Quadrant → Corners :=
  fun q =>
    let sm := midpoint c.sw c.se
    let em := midpoint c.se c.ne
    let nm := midpoint c.ne c.nw
    let wm := midpoint c.nw c.sw
    let ctr := midpoint sm nm
    match q with
    | Quadrant.SW => ⟨c.sw, sm, ctr, wm⟩
    | Quadrant.SE => ⟨sm, c.se, em, ctr⟩
    | Quadrant.NE => ⟨ctr, em, c.ne, nm⟩
    | Quadrant.NW => ⟨wm, ctr, nm, c.nw⟩

/-- A cell with no children. -/
def leafCell (c : Corners) : Tree := Tree.mk c none none none none

/-- A cell whose four child slots hold the four childless quadrant cells. -/
def onceRefined (c : Corners) : Tree :=
  Tree.mk c
    (some (leafCell (quadrantCorners c Quadrant.SW)))
    (some (leafCell (quadrantCorners c Quadrant.SE)))
    (some (leafCell (quadrantCorners c Quadrant.NE)))
    (some (leafCell (quadrantCorners c Quadrant.NW)))

/-- The four edges a cell builds from its corner vertices at construction:
the south edge from SW to SE, the east edge from SE to NE, the north edge
from NE to NW and the west edge from NW to SW. -/
def cellEdges (c : Corners) : Dir → Vertex × Vertex
  | Dir.S => (c.sw, c.se)
  | Dir.E => (c.se, c.ne)
  | Dir.N => (c.ne, c.nw)
  | Dir.W => (c.nw, c.sw)

/-- Precondition failures of the mesh adaptation operations named by the
spec error taxonomy. -/
inductive CellErr where
  | alreadyRefined
  | childrenNotLeaves
deriving DecidableEq

/-- Modelled from the spec: `Cell.refine` is an unimplemented stub (`pass`
with a TODO marker) in the source, so the operation is modelled from the
spec: it requires a cell without children, populates the four child slots
with childless quadrant cells built from the midpoint and center vertices,
and otherwise fails with AlreadyRefined. -/
def Tree.refine (t : Tree) : Except CellErr Tree :=
  if t.childless then Except.ok (onceRefined t.corners)
  else Except.error CellErr.alreadyRefined

/-- The raw direction argument of `find_neighbor`, a string in the source:
one of the four valid letters, or any other string. -/
inductive RawDir where
  | N
  | S
  | E
  | W
  | other
deriving DecidableEq

/-- Dispatch of the raw direction argument against the four valid letters. -/
def toDir : RawDir → Option Dir
  | RawDir.N => some Dir.N
  | RawDir.S => some Dir.S
  | RawDir.E => some Dir.E
  | RawDir.W => some Dir.W
  | RawDir.other => none

/-- Observable outcome of a call to `find_neighbor` with a raw direction
argument: whether the invalid-direction message was printed, and the result
(a normal return value or a raised runtime error). -/
structure RawOutcome where
  printedInvalidDirMsg : Bool
  result : Except PyErr (Option (ℕ × List Quadrant))

/-- `Cell.find_neighbor` on an arbitrary raw direction string.  A valid
direction runs the normal algorithm.  For any other string, a root cell
prints the invalid-direction message inside the first loop iteration and
returns `None` (the message is only printed when the root list is nonempty,
since an empty list skips the loop body); a non-root cell prints the message
and then falls through to the membership test on the local
`interior_neighbors_dict`, which was never assigned on that branch, raising
NameError. -/
def find_neighbor_raw (F : List Tree) (r : ℕ) (path : List Quadrant)
    (direction : RawDir) : RawOutcome :=
  match toDir direction with
  | some d => ⟨false, Except.ok (find_neighbor F r path d)⟩
  | none =>
    match path with
    | [] =>
      if F.isEmpty then ⟨false, Except.ok none⟩
      else ⟨true, Except.ok none⟩
    | _ :: _ => ⟨true, Except.error PyErr.nameError⟩

/-! Concrete forest used by the counterexamples and witnesses: two root
cells side by side, the square with corners (0,0) and (2,2) listed first and
the square with corners (2,0) and (4,2) listed second, each with its four
quadrant children populated. -/

/-- Corner set of the first (western) root. -/
def cornersA : Corners := rectCorners 0 2 0 2

/-- Corner set of the second (eastern) root. -/
def cornersB : Corners := rectCorners 2 4 0 2

/-- The western root with its four children. -/
def rootA : Tree := onceRefined cornersA

/-- The eastern root with its four children. -/
def rootB : Tree := onceRefined cornersB

/-- The demonstration forest: the two roots in west-to-east order. -/
def F2 : List Tree := [rootA, rootB]

/-- The NE child of the western root, the square with corners (1,1), (2,2). -/
def cellANE : Tree := leafCell (quadrantCorners cornersA Quadrant.NE)

/-- The NW child of the eastern root, the square with corners (2,1), (3,2). -/
def cellBNW : Tree := leafCell (quadrantCorners cornersB Quadrant.NW)

/-! Theorems settling the claims. -/

/-- C1: refuted on the code.  In the forest `F2` the eastern root `rootB`
passes the direction-specific shared-corner test for the east neighbor of
the western root `rootA`, yet `find_neighbor` on `rootA` returns `None`:
the scan concludes after testing only the first candidate of the root list
(here `rootA` itself), instead of scanning the entire list. -/
theorem C1_root_scan_stops_early :
    find_neighbor F2 0 [] Dir.E = none
    ∧ F2.get? 1 = some rootB
    ∧ neighborTest rootA.corners rootB.corners Dir.E = true :=
  ⟨rfl, rfl, by decide⟩

/-- C2: for a non-root cell whose position has no entry in the interior
table for the requested direction, `find_neighbor` computes the parent
neighbor `mu` recursively and returns: `None` when `mu` is `None`; `mu`
itself when `mu` is LEAF-classified (non-root and childless); and otherwise
the single child of `mu` at the mirror-table entry for the position of the
cell, with no further recursive descent. -/
theorem C2_exterior_neighbor (F : List Tree) (r : ℕ) (pos : Quadrant)
    (rest : List Quadrant) (d : Dir)
    (hint : interiorNeighbor d pos = none) :
    (find_neighbor F r rest d = none → find_neighbor F r (pos :: rest) d = none)
    ∧ (∀ rp pp mu, find_neighbor F r rest d = some (rp, pp) →
        getCell F rp pp = some mu → pp ≠ [] → mu.childless = true →
        find_neighbor F r (pos :: rest) d = some (rp, pp))
    ∧ (∀ rp pp mu epos, find_neighbor F r rest d = some (rp, pp) →
        getCell F rp pp = some mu → (!pp.isEmpty && mu.childless) = false →
        exteriorNeighbor d pos = some epos →
        find_neighbor F r (pos :: rest) d
          = Option.map (fun _ => (rp, epos :: pp)) (mu.child epos)) := by
  refine ⟨?_, ?_, ?_⟩
  · intro h
    simp [find_neighbor, hint, h]
  · intro rp pp mu h1 h2 h3 h4
    cases pp with
    | nil => exact absurd rfl h3
    | cons q qs => simp [find_neighbor, hint, h1, h2, h4]
  · intro rp pp mu epos h1 h2 h3 h4
    simp only [find_neighbor, hint, h1, h2, h3, h4]
    cases hc : mu.child epos <;> simp [hc]

/-- C2 witness: in the forest `F2`, the NW child of the eastern root has no
interior entry for direction W; its parent neighbor is the western root (not
LEAF-classified), and the result is the single child of that root at the
mirror entry NE. -/
theorem C2_exterior_neighbor_witness :
    interiorNeighbor Dir.W Quadrant.NW = none
    ∧ find_neighbor F2 1 [Quadrant.NW] Dir.W = some (0, [Quadrant.NE]) := by
  refine ⟨rfl, ?_⟩
  have h := (C2_exterior_neighbor F2 1 Quadrant.NW [] Dir.W rfl).2.2
    0 [] rootA Quadrant.NE rfl rfl rfl rfl
  exact h.trans rfl

/-- C3: for a non-root cell whose position has an entry in the interior
table for the requested direction, `find_neighbor` returns the sibling slot
`parent.children[entry]`: the sibling address when the slot is populated and
`None` when the slot is unpopulated (a valid non-error outcome). -/
theorem C3_interior_neighbor (F : List Tree) (r : ℕ) (pos : Quadrant)
    (rest : List Quadrant) (d : Dir) (npos : Quadrant) (par : Tree)
    (hint : interiorNeighbor d pos = some npos)
    (hpar : getCell F r rest = some par) :
    find_neighbor F r (pos :: rest) d
      = Option.map (fun _ => (r, npos :: rest)) (par.child npos) := by
  simp only [find_neighbor, hint, hpar]
  cases hc : par.child npos <;> simp [hc]

/-- C3 witness: in the forest `F2`, the SW child of the western root has the
interior entry NW for direction N, and `find_neighbor` returns the populated
NW sibling slot. -/
theorem C3_interior_neighbor_witness :
    interiorNeighbor Dir.N Quadrant.SW = some Quadrant.NW
    ∧ getCell F2 0 [] = some rootA
    ∧ find_neighbor F2 0 [Quadrant.SW] Dir.N = some (0, [Quadrant.NW]) := by
  refine ⟨rfl, rfl, ?_⟩
  exact (C3_interior_neighbor F2 0 Quadrant.SW [] Dir.N Quadrant.NW rootA rfl rfl).trans rfl

/-- C4: refuted on the code.  In the forest `F2` the NW child of the eastern
root and the NE child of the western root are childless cells of equal depth
sharing their vertical boundary (the shared-corner test holds), and the
first finds the second as its west neighbor; yet the second does not find
the first as its east neighbor: the root scan for the western root tests
only the first root of the list, the western root itself, and concludes
`None`. -/
theorem C4_symmetry_fails :
    cellTypeOf [Quadrant.NW] cellBNW = CellType.LEAF
    ∧ cellTypeOf [Quadrant.NE] cellANE = CellType.LEAF
    ∧ depthOf [Quadrant.NW] = depthOf [Quadrant.NE]
    ∧ getCell F2 1 [Quadrant.NW] = some cellBNW
    ∧ getCell F2 0 [Quadrant.NE] = some cellANE
    ∧ neighborTest cellBNW.corners cellANE.corners Dir.W = true
    ∧ opposite Dir.W = Dir.E
    ∧ find_neighbor F2 1 [Quadrant.NW] Dir.W = some (0, [Quadrant.NE])
    ∧ find_neighbor F2 0 [Quadrant.NE] Dir.E = none := by
  refine ⟨rfl, rfl, rfl, rfl, rfl, ?_, rfl, rfl, rfl⟩
  norm_num [neighborTest, cellBNW, cellANE, leafCell, Tree.corners,
    quadrantCorners, midpoint, cornersA, cornersB, rectCorners, Vertex.mk.injEq]

/-- C5: refuted on the code.  `contains_point` is the fully inclusive test
on both boundaries, not the half-open test of the claim: the point (2,1)
lies strictly inside the overall bounding rectangle of the forest `F2`
(x extent 0 to 4, y extent 0 to 2), yet two distinct childless cells both
contain it, because the NE child of the western root includes its eastern
boundary x = 2 even though 2 is not the global maximum. -/
theorem C5_contains_point_inclusive :
    cellTypeOf [Quadrant.NE] cellANE = CellType.LEAF
    ∧ cellTypeOf [Quadrant.NW] cellBNW = CellType.LEAF
    ∧ cellANE.corners ≠ cellBNW.corners
    ∧ ((0 : ℚ) < 2 ∧ (2 : ℚ) < 4 ∧ (0 : ℚ) < 1 ∧ (1 : ℚ) < 2)
    ∧ contains_point cellANE.corners (2, 1) = true
    ∧ contains_point cellBNW.corners (2, 1) = true := by
  refine ⟨rfl, rfl, ?_, by norm_num, ?_, ?_⟩
  · norm_num [cellANE, cellBNW, leafCell, Tree.corners, quadrantCorners,
      midpoint, cornersA, cornersB, rectCorners, Corners.mk.injEq, Vertex.mk.injEq]
  · norm_num [contains_point, cellANE, leafCell, Tree.corners, quadrantCorners,
      midpoint, cornersA, rectCorners]
  · norm_num [contains_point, cellBNW, leafCell, Tree.corners, quadrantCorners,
      midpoint, cornersB, rectCorners]

/-- C6: refuted on the code.  On an unrefined root cell (type ROOT,
childless), `find_leaves` raises AttributeError instead of returning the
root itself once: the ROOT branch iterates the children dictionary, which
yields its string keys, and calls `find_leaves` on a string. -/
theorem C6_find_leaves_crashes_on_root :
    (leafCell (rectCorners 0 2 0 2)).childless = true
    ∧ cellTypeOf [] (leafCell (rectCorners 0 2 0 2)) = CellType.ROOT
    ∧ find_leaves (leafCell (rectCorners 0 2 0 2)) true
        = Except.error PyErr.attributeError :=
  ⟨rfl, rfl, rfl⟩

/-- Behaviour of `refine` on a childless non-root cell over the axis-aligned
rectangle with x extent x0 to x1 and y extent y0 to y1: the cell is
LEAF-classified; `refine` succeeds and produces a BRANCH-classified cell
whose four child slots hold childless cells occupying exactly the four
quadrant rectangles, each child carrying its own four construction edges;
and a second `refine` fails with AlreadyRefined. -/
def RefineBehavior (x0 x1 y0 y1 : ℚ) (path : List Quadrant) : Prop :=
  cellTypeOf path (leafCell (rectCorners x0 x1 y0 y1)) = CellType.LEAF
  ∧ ∃ t, (leafCell (rectCorners x0 x1 y0 y1)).refine = Except.ok t
      ∧ cellTypeOf path t = CellType.BRANCH
      ∧ t.child Quadrant.SW
          = some (leafCell (rectCorners x0 ((x0 + x1) / 2) y0 ((y0 + y1) / 2)))
      ∧ t.child Quadrant.SE
          = some (leafCell (rectCorners ((x0 + x1) / 2) x1 y0 ((y0 + y1) / 2)))
      ∧ t.child Quadrant.NE
          = some (leafCell (rectCorners ((x0 + x1) / 2) x1 ((y0 + y1) / 2) y1))
      ∧ t.child Quadrant.NW
          = some (leafCell (rectCorners x0 ((x0 + x1) / 2) ((y0 + y1) / 2) y1))
      ∧ (∀ q u, t.child q = some u → cellTypeOf (q :: path) u = CellType.LEAF)
      ∧ (∀ q u, t.child q = some u →
          cellEdges u.corners Dir.S = (u.corners.sw, u.corners.se)
          ∧ cellEdges u.corners Dir.E = (u.corners.se, u.corners.ne)
          ∧ cellEdges u.corners Dir.N = (u.corners.ne, u.corners.nw)
          ∧ cellEdges u.corners Dir.W = (u.corners.nw, u.corners.sw))
      ∧ t.refine = Except.error CellErr.alreadyRefined

/-- The quadrant corner sets of an axis-aligned rectangle are the four
half-size corner rectangles. -/
theorem quadrantCorners_rect (x0 x1 y0 y1 : ℚ) :
    quadrantCorners (rectCorners x0 x1 y0 y1) Quadrant.SW
        = rectCorners x0 ((x0 + x1) / 2) y0 ((y0 + y1) / 2)
    ∧ quadrantCorners (rectCorners x0 x1 y0 y1) Quadrant.SE
        = rectCorners ((x0 + x1) / 2) x1 y0 ((y0 + y1) / 2)
    ∧ quadrantCorners (rectCorners x0 x1 y0 y1) Quadrant.NE
        = rectCorners ((x0 + x1) / 2) x1 ((y0 + y1) / 2) y1
    ∧ quadrantCorners (rectCorners x0 x1 y0 y1) Quadrant.NW
        = rectCorners x0 ((x0 + x1) / 2) ((y0 + y1) / 2) y1 := by
  refine ⟨?_, ?_, ?_, ?_⟩ <;>
    · simp only [quadrantCorners, rectCorners, midpoint, Corners.mk.injEq,
        Vertex.mk.injEq]
      and_intros <;> (first | trivial | ring)

/-- C7: proved against the spec model.  `refine` on a childless non-root
cell (LEAF-classified) succeeds, populating the four quadrant children as
childless cells with their own construction edges and turning the cell into
a BRANCH; a second `refine` without an intervening `coarsen` fails with
AlreadyRefined. -/
theorem C7_refine_spec (x0 x1 y0 y1 : ℚ) (path : List Quadrant)
    (hpath : path ≠ []) : RefineBehavior x0 x1 y0 y1 path := by
  have hne : path.isEmpty = false := by
    cases path with
    | nil => exact absurd rfl hpath
    | cons a l => rfl
  obtain ⟨hsw, hse, hnee, hnw⟩ := quadrantCorners_rect x0 x1 y0 y1
  refine ⟨by simp [cellTypeOf, hne, leafCell, Tree.childless],
    onceRefined (rectCorners x0 x1 y0 y1), rfl,
    by simp [cellTypeOf, hne, onceRefined, Tree.childless],
    ?_, ?_, ?_, ?_, ?_, ?_, rfl⟩
  · simp only [onceRefined, Tree.child, hsw]
  · simp only [onceRefined, Tree.child, hse]
  · simp only [onceRefined, Tree.child, hnee]
  · simp only [onceRefined, Tree.child, hnw]
  · intro q u hq
    cases q <;>
      · simp only [onceRefined, Tree.child, Option.some.injEq] at hq
        subst hq
        simp [cellTypeOf, leafCell, Tree.childless]
  · intro q u hq
    exact ⟨rfl, rfl, rfl, rfl⟩

/-- C7 witness: the behaviour at the unit square as the SW child of a
parent cell. -/
theorem C7_refine_spec_witness :
    [Quadrant.SW] ≠ ([] : List Quadrant)
    ∧ RefineBehavior 0 1 0 1 [Quadrant.SW] :=
  ⟨by decide, C7_refine_spec 0 1 0 1 [Quadrant.SW] (by decide)⟩

/-- C8: refuted on the code.  With an invalid direction string, a root cell
of the forest `F2` prints the invalid-direction message and returns a plain
`None`, indistinguishable from the no-neighbor result (the failure is merely
logged and otherwise ignored); a non-root cell prints the message and then
raises NameError through the never-assigned interior table local, not an
InvalidDirection result value. -/
theorem C8_invalid_direction_swallowed :
    find_neighbor_raw F2 0 [] RawDir.other
      = ⟨true, Except.ok none⟩
    ∧ find_neighbor_raw F2 0 [Quadrant.SW] RawDir.other
      = ⟨true, Except.error PyErr.nameError⟩
    ∧ find_neighbor_raw F2 0 [] RawDir.N
      = ⟨false, Except.ok (find_neighbor F2 0 [] Dir.N)⟩ :=
  ⟨rfl, rfl, rfl⟩

/-- C9: for every valid direction the interior table and its mirror have
disjoint key sets whose union is all four quadrant positions: exactly one of
the two lookups applies to each position, the interior-table entry for a key
position points back to it through the mirror table, and whenever the
interior lookup fails the mirror lookup succeeds, so the implicit
fall-through of the non-root branch is unreachable. -/
theorem C9_tables_partition :
    ∀ (d : Dir) (q : Quadrant),
      ((interiorNeighbor d q).isSome ↔ ¬ (exteriorNeighbor d q).isSome)
      ∧ (interiorNeighbor d q = none → (exteriorNeighbor d q).isSome = true)
      ∧ (∀ q2, interiorNeighbor d q = some q2 ↔ exteriorNeighbor d q2 = some q) := by
  decide

/-- C10: `find_root` is total: each recursive step passes from a cell to its
parent, strictly decreasing the depth, and the result for any cell address
is the depth-0 root cell of that tree, whose classification is ROOT; on a
root cell it is the identity. -/
theorem C10_find_root_total (F : List Tree) (r : ℕ) (path : List Quadrant)
    (rt : Tree) (hr : F.get? r = some rt) :
    (∀ (pos : Quadrant) (rest : List Quadrant),
        find_root r (pos :: rest) = find_root r rest
        ∧ depthOf rest < depthOf (pos :: rest))
    ∧ find_root r path = (r, [])
    ∧ getCell F r (find_root r path).2 = some rt
    ∧ cellTypeOf (find_root r path).2 rt = CellType.ROOT
    ∧ find_root r [] = (r, []) := by
  have hfr : ∀ p : List Quadrant, find_root r p = (r, []) := by
    intro p
    induction p with
    | nil => rfl
    | cons q qs ih => simpa [find_root] using ih
  refine ⟨fun pos rest => ⟨rfl, by simp [depthOf]⟩, hfr path, ?_, ?_, hfr []⟩
  · rw [hfr path]
    simp only [getCell, hr, Tree.descendUp]
  · rw [hfr path]
    rfl

/-- C10 witness: the SW child of the western root of the forest `F2` finds
the western root. -/
theorem C10_find_root_total_witness :
    F2.get? 0 = some rootA ∧ find_root 0 [Quadrant.SW] = (0, []) := by
  refine ⟨rfl, ?_⟩
  exact (C10_find_root_total F2 0 [Quadrant.SW] rootA rfl).2.1

end Quadmesh
